import Mathlib

/-!
Shallow embedding of `src/nonocaptcha/speech.py` (the dual-strategy
transcription orchestrator) together with theorems settling the frozen
claims about it.

The two provider classes `Amazon` and `Azure` are modelled as explicit
functions over a "world" record that supplies the behaviour of the
external collaborators (object storage, the batch transcription service,
the wall clock `time.time()`, the websocket frame stream and the
`json.loads` parser).  Raising a Python exception is modelled by the
`raised` outcome carrying a `PyErr`; loops that the source can run
forever are given a fuel parameter, `diverged` marking fuel exhaustion.
-/

namespace Speech

/-- Python exceptions that the embedded code can raise, plus the
`ProtocolError` of the spec's error taxonomy (which the source never
defines nor raises, but which the claims mention). -/
inductive PyErr where
  | transportError
  | authError
  | protocolError
  | timeoutError
  | attrError
  | nameError
  | keyError
  | indexError
  | jsonError
  deriving DecidableEq, Repr

namespace Amazon

/-- The record returned by `get_transcription_job` as read by the source:
`status['TranscriptionJob']['TranscriptionJobStatus']` and the optional
`'TranscriptFileUri'` key of `status['TranscriptionJob']['Transcript']`
(`none` models the key being absent from the `Transcript` dict). -/
structure JobRecord where
  jobStatus : String
  transcriptFileUri : Option String
  deriving DecidableEq, Repr

/-- External behaviour visible to one `Amazon.get_text` attempt: whether
`put_object` / `start_transcription_job` raise, whether the k-th
`get_transcription_job` call raises and what record it returns, the
wall-clock value `time.time()` reads at the k-th loop-condition check,
and the combined outcome of `util.get_page` + `json.loads` +
`data['results']['transcripts'][0]['transcript']` for a given URI. -/
structure World where
  putObjectRaises : Bool
  startJobRaises : Bool
  getJobRaises : Nat → Bool
  jobRecord : Nat → JobRecord
  clock : Nat → Nat
  fetchTranscript : String → Except PyErr String

/-- Result of the poll loop at lines 61-71 of speech.py. -/
inductive PollResult where
  | diverged
  | raised (e : PyErr)
  | exited (last : Option JobRecord)
  deriving DecidableEq, Repr

/-- The source's poll loop (`timeout = 60; while time.time() > timeout: ...`),
instrumented with the number of `get_transcription_job` calls made.
`k` indexes successive `time.time()` readings, `last` is the Python
variable `status` (unbound on entry, hence `Option`), `q` the query
count so far.  Note the guard compares the current wall clock against
the constant 60, exactly as the source does. -/
def pollLoop (w : World) : Nat → Nat → Option JobRecord → Nat → PollResult × Nat
  | 0, _, _, q => (.diverged, q)
  | fuel + 1, k, last, q =>
    if 60 < w.clock k then
      if w.getJobRaises k then (.raised .transportError, q + 1)
      else
        let st := w.jobRecord k
        if st.jobStatus = "COMPLETED" ∨ st.jobStatus = "FAILED" then
          (.exited (some st), q + 1)
        else
          pollLoop w fuel (k + 1) (some st) (q + 1)
    else (.exited last, q)

/-- Overall outcome of one `Amazon.get_text` call: the returned value
(`some` transcript or Python `None`), a propagated exception, or fuel
exhaustion inside the poll loop. -/
inductive Outcome where
  | finished (t : Option String)
  | raised (e : PyErr)
  | diverged
  deriving DecidableEq, Repr

/-- One `Amazon.get_text` attempt: the outcome together with how many
times `delete_object` was called on the uploaded object. -/
structure Run where
  outcome : Outcome
  deleteCalls : Nat
  deriving DecidableEq, Repr

/-- Embedding of `Amazon.get_text` (speech.py lines 29-80).  Upload, then
job submission, then the poll loop; `delete_object` runs at line 73 only
when control reaches it — there is no try/finally in the source, so an
exception raised by `start_transcription_job` or by a poll skips the
deletion.  After deletion, line 74 reads the loop variable `status`
(NameError if the loop body never ran), fetches the result document when
`'TranscriptFileUri'` is present, and returns the transcript verbatim;
otherwise the function falls off the end and returns `None`. -/
def get_text (w : World) (fuel : Nat) : Run :=
  if w.putObjectRaises then ⟨.raised .transportError, 0⟩
  else if w.startJobRaises then ⟨.raised .transportError, 0⟩
  else
    match (pollLoop w fuel 0 none 0).1 with
    | .diverged => ⟨.diverged, 0⟩
    | .raised e => ⟨.raised e, 0⟩
    | .exited none => ⟨.raised .nameError, 1⟩
    | .exited (some st) =>
      match st.transcriptFileUri with
      | some uri =>
        match w.fetchTranscript uri with
        | .error e => ⟨.raised e, 1⟩
        | .ok t => ⟨.finished (some t), 1⟩
      | none => ⟨.finished none, 1⟩

end Amazon

namespace Azure

/-- A parsed JSON response body as the source reads it: the value of the
`"RecognitionStatus"` key (`none` when absent), and the list of
`"Display"` strings of the `"NBest"` array (`none` when the `"NBest"`
key is absent). -/
structure Content where
  recognitionStatus : Option String
  nbest : Option (List String)
  deriving DecidableEq, Repr

/-- Scan for the first match of the regex `^\r\n` in MULTILINE mode: a
`"\r\n"` occurring at the start of the string or right after a `'\n'`.
Returns `m.end()`, the index just past the matched pair.  `pos` is the
current index and `atStart` whether it begins a line. -/
def searchSep : List Char → Nat → Bool → Option Nat
  | [], _, _ => none
  | c :: rest, pos, atStart =>
    if atStart ∧ c = '\r' ∧ rest.head? = some '\n' then some (pos + 2)
    else searchSep rest (pos + 1) (c = '\n')

/-- Embedding of `Azure.extract_json_body` (speech.py lines 103-109).
`jsonLoads` models the external `json.loads` (`none` = parse error).
When the separator regex finds no match, `m` is Python `None` and the
call `m.end()` raises `AttributeError`. -/
def extract_json_body (response : List Char) (jsonLoads : List Char → Option Content) :
    Except PyErr Content :=
  match searchSep response 0 true with
  | none => .error .attrError
  | some e =>
    match jsonLoads (response.drop e) with
    | none => .error .jsonError
    | some c => .ok c

/-- The transformation the source applies to `answer = content["NBest"][0]["Display"]`
at line 149: `answer[:-1].lower()`.  Python `s[:-1]` on the empty string
is the empty string, and `.lower()` is modelled per character. -/
def normalizeAnswer (answer : String) : String :=
  String.mk ((answer.toList.dropLast).map Char.toLower)

/-- External behaviour visible to one `Azure.get_text` attempt: the raw
text of the k-th `websocket.recv()` frame, the `json.loads` parser, and
the wall-clock value of the k-th `time.time()` reading (reading 0 sets
the deadline at line 140; readings 1, 2, ... are the loop-condition
checks). -/
structure World where
  frames : Nat → String
  jsonLoads : List Char → Option Content
  clock : Nat → Nat

/-- Outcome of one `Azure.get_text` call: the returned value (`some`
transcript, or Python `None` on EndOfDictation or when the loop exits on
its clock check), a propagated exception, or fuel exhaustion. -/
inductive Outcome where
  | finished (t : Option String)
  | raised (e : PyErr)
  | diverged
  deriving DecidableEq, Repr

/-- The receive loop at lines 141-155: while `time.time() < timeout`,
receive a frame, extract its JSON body, return on a `"Success"` or
`"EndOfDictation"` status, otherwise sleep and continue.  When the clock
check fails the Python function falls off its end and returns `None`.
`j` indexes the `time.time()` reading / frame of the iteration. -/
def recvLoop (w : World) (deadline : Nat) : Nat → Nat → Outcome
  | 0, _ => .diverged
  | fuel + 1, j =>
    if w.clock j < deadline then
      match extract_json_body (w.frames j).toList w.jsonLoads with
      | .error e => .raised e
      | .ok content =>
        if content.recognitionStatus = some "Success" then
          match content.nbest with
          | none => .raised .keyError
          | some [] => .raised .indexError
          | some (d :: _) => .finished (some (normalizeAnswer d))
        else if content.recognitionStatus = some "EndOfDictation" then
          .finished none
        else recvLoop w deadline fuel (j + 1)
    else .finished none

/-- The instance state an `Azure.get_text` call reads: the value of the
attribute `self.mp3_filename`, `none` when it was never assigned (reading
it then raises `AttributeError`). -/
structure Instance where
  mp3FilenameAttr : Option String

/-- Filename part of `Azure.mp3_to_wav` (line 98); the actual transcoding
is delegated to the external codec. -/
def mp3_to_wav (mp3Filename : String) : String :=
  mp3Filename.replace ".mp3" ".wav"

/-- One `Azure.get_text` attempt: the outcome together with whether a
websocket session was opened. -/
structure Run where
  outcome : Outcome
  sessionOpened : Bool
  deriving DecidableEq, Repr

/-- Embedding of `Azure.get_text` (speech.py lines 130-155).  Note line
131 reads the instance attribute `self.mp3_filename`, never the
`mp3_filename` parameter: an unset attribute raises `AttributeError`
before any session is opened.  Otherwise the audio is transcoded, the
websocket session opened, the file sent (connect/send by the external
collaborators, modelled as succeeding), the deadline fixed at
`time.time() + 15`, and the receive loop run. -/
def get_text (inst : Instance) (mp3_filename : String) (w : World) (fuel : Nat) : Run :=
  match inst.mp3FilenameAttr with
  | none => ⟨.raised .attrError, false⟩
  | some attr =>
    let _wav_filename := mp3_to_wav attr
    let deadline := w.clock 0 + 15
    ⟨recvLoop w deadline fuel 1, true⟩

/-- UTF-8 encoding of one character, as Python `str.encode()` produces it. -/
def utf8Bytes (c : Char) : List Nat :=
  let n := c.toNat
  if n < 0x80 then [n]
  else if n < 0x800 then
    [0xC0 ||| (n >>> 6), 0x80 ||| (n &&& 0x3F)]
  else if n < 0x10000 then
    [0xE0 ||| (n >>> 12), 0x80 ||| ((n >>> 6) &&& 0x3F), 0x80 ||| (n &&& 0x3F)]
  else
    [0xF0 ||| (n >>> 18), 0x80 ||| ((n >>> 12) &&& 0x3F),
     0x80 ||| ((n >>> 6) &&& 0x3F), 0x80 ||| (n &&& 0x3F)]

/-- Python `s.encode()`: UTF-8 bytes of a string given as its characters. -/
def encodeStr (s : List Char) : List Nat :=
  s.flatMap utf8Bytes

/-- The header f-string of `Azure.build_message` (lines 115-118), as a
sequence of characters. -/
def buildHeader (reqId timestamp : List Char) : List Char :=
  ("X-RequestId: ".toList) ++ reqId ++ ("\r\nX-Timestamp: ".toList) ++ timestamp ++
    ("Z\r\nPath: audio\r\nContent-Type: audio/x-wav\r\n\r\n".toList)

/-- Python `struct.pack(">H", n)`: two big-endian bytes; raises
`struct.error` (modelled as `none`) when `n` does not fit in 16 bits. -/
def pack2BE (n : Nat) : Option (List Nat) :=
  if n < 65536 then some [n / 256, n % 256] else none

/-- Embedding of `Azure.build_message` (lines 111-122): the 2-byte
big-endian prefix packs `len(header)` — the CHARACTER count of the
Python string — followed by `header.encode()` (its UTF-8 bytes) and the
payload. -/
def build_message (reqId timestamp : List Char) (payload : List Nat) : Option (List Nat) :=
  match pack2BE (buildHeader reqId timestamp).length with
  | none => none
  | some pre => some (pre ++ encodeStr (buildHeader reqId timestamp) ++ payload)

/-- Decode the 2-byte big-endian length prefix of a framed message. -/
def decodeLen (msg : List Nat) : Nat :=
  match msg with
  | b0 :: b1 :: _ => b0 * 256 + b1
  | _ => 0

end Azure

/-- Modelled from the spec: "the best transcript string, normalized to
lower-case with any trailing punctuation stripped".  A string satisfies
this when it has no upper-case letter and does not end in a period (the
trailing punctuation the endpoint appends).  Used only to compare the
spec's normalization requirement with what the source returns. -/
def specNormalized (s : String) : Bool :=
  s.toList.all (fun c => !c.isUpper) && !(s.toList.getLast? == some '.')

/-- The regex `^\r\n` (MULTILINE) has a match at index `i` of `r`: a
`'\r'` at `i` followed by `'\n'`, with `i` at the start of the string or
right after a `'\n'`. -/
def SepAt (r : List Char) (i : Nat) : Prop :=
  (i = 0 ∨ r[i - 1]? = some '\n') ∧ r[i]? = some '\r' ∧ r[i + 1]? = some '\n'

/-- The k-th received frame extracts to a JSON body that is neither a
`"Success"` nor an `"EndOfDictation"` status (a non-terminal frame). -/
def NonTerminalFrame (w : Azure.World) (k : Nat) : Prop :=
  ∃ c, Azure.extract_json_body (w.frames k).toList w.jsonLoads = .ok c ∧
    c.recognitionStatus ≠ some "Success" ∧ c.recognitionStatus ≠ some "EndOfDictation"

/-- A batch attempt whose job submission raises: upload succeeds, then
`start_transcription_job` raises. -/
def submitRaiseWorld : Amazon.World where
  putObjectRaises := false
  startJobRaises := true
  getJobRaises := fun _ => false
  jobRecord := fun _ => ⟨"COMPLETED", none⟩
  clock := fun k => 1700000000 + k
  fetchTranscript := fun _ => .ok "three one nine."

/-- A batch attempt whose first `get_transcription_job` call raises. -/
def pollRaiseWorld : Amazon.World where
  putObjectRaises := false
  startJobRaises := false
  getJobRaises := fun _ => true
  jobRecord := fun _ => ⟨"COMPLETED", none⟩
  clock := fun k => 1700000000 + k
  fetchTranscript := fun _ => .ok "three one nine."

/-- A batch attempt whose job is IN_PROGRESS at every poll, under a
realistic wall clock (epoch seconds, advancing one second per check). -/
def inProgressWorld : Amazon.World where
  putObjectRaises := false
  startJobRaises := false
  getJobRaises := fun _ => false
  jobRecord := fun _ => ⟨"IN_PROGRESS", none⟩
  clock := fun k => 1700000000 + k
  fetchTranscript := fun _ => .error .transportError

/-- A batch attempt whose job completes at the first poll with a result
URI, the result document carrying a capitalized transcript that ends in
a period. -/
def completedWorld : Amazon.World where
  putObjectRaises := false
  startJobRaises := false
  getJobRaises := fun _ => false
  jobRecord := fun _ => ⟨"COMPLETED", some "uri"⟩
  clock := fun k => 1700000000 + k
  fetchTranscript := fun _ => .ok "Three One Nine."

/-- A batch attempt whose job reaches FAILED at the first poll while its
record still carries a `TranscriptFileUri`. -/
def failedWithUriWorld : Amazon.World where
  putObjectRaises := false
  startJobRaises := false
  getJobRaises := fun _ => false
  jobRecord := fun _ => ⟨"FAILED", some "uri"⟩
  clock := fun k => 1700000000 + k
  fetchTranscript := fun _ => .ok "three one nine."

/-- A batch attempt whose job reaches FAILED at the first poll with no
`TranscriptFileUri` in its record. -/
def failedNoUriWorld : Amazon.World where
  putObjectRaises := false
  startJobRaises := false
  getJobRaises := fun _ => false
  jobRecord := fun _ => ⟨"FAILED", none⟩
  clock := fun k => 1700000000 + k
  fetchTranscript := fun _ => .ok "three one nine."

/-- A streaming attempt whose every frame carries a non-terminal
`"InProgress"` status, under a clock advancing one second per reading. -/
def inProgressAzureWorld : Azure.World where
  frames := fun _ => "\r\nbody"
  jsonLoads := fun _ => some ⟨some "InProgress", none⟩
  clock := fun k => 100 + k

/-- A streaming attempt whose frames carry `RecognitionStatus "Success"`
with `NBest[0].Display = "Seven."`. -/
def successSevenWorld : Azure.World where
  frames := fun _ => "\r\nbody"
  jsonLoads := fun _ => some ⟨some "Success", some ["Seven."]⟩
  clock := fun k => 100 + k

/-- A streaming attempt whose frames carry `RecognitionStatus "Success"`
with a Display that has no trailing punctuation. -/
def successNoDotWorld : Azure.World where
  frames := fun _ => "\r\nbody"
  jsonLoads := fun _ => some ⟨some "Success", some ["seven"]⟩
  clock := fun k => 100 + k

/-- A streaming attempt whose frames carry `RecognitionStatus
"EndOfDictation"`. -/
def endOfDictWorld : Azure.World where
  frames := fun _ => "\r\nbody"
  jsonLoads := fun _ => some ⟨some "EndOfDictation", none⟩
  clock := fun k => 100 + k

/-- The poll loop's query counter never decreases. -/
theorem pollLoop_queries_mono (w : Amazon.World) :
    ∀ fuel k last q, q ≤ (Amazon.pollLoop w fuel k last q).2 := by
  intro fuel
  induction fuel with
  | zero => intro k last q; exact Nat.le_refl q
  | succ n ih =>
    intro k last q
    simp only [Amazon.pollLoop]
    split
    · split
      · exact Nat.le_succ q
      · split
        · exact Nat.le_succ q
        · exact Nat.le_trans (Nat.le_succ q) (ih (k + 1) _ (q + 1))
    · exact Nat.le_refl q

/-- A receive-loop iteration whose frame extracts to a `"Success"` body
with a non-empty NBest list returns the normalized first Display. -/
theorem recvLoop_success_step (w : Azure.World) (deadline fuel j : Nat)
    (c : Azure.Content) (d : String) (rest : List String)
    (hclk : w.clock j < deadline)
    (hext : Azure.extract_json_body (w.frames j).toList w.jsonLoads = .ok c)
    (hst : c.recognitionStatus = some "Success")
    (hnb : c.nbest = some (d :: rest)) :
    Azure.recvLoop w deadline (fuel + 1) j = .finished (some (Azure.normalizeAnswer d)) := by
  simp only [Azure.recvLoop]
  rw [if_pos hclk]
  simp only [hext]
  rw [if_pos hst]
  simp only [hnb]

/-- A receive-loop iteration whose frame extracts to an
`"EndOfDictation"` body returns Python `None`. -/
theorem recvLoop_eod_step (w : Azure.World) (deadline fuel j : Nat)
    (c : Azure.Content)
    (hclk : w.clock j < deadline)
    (hext : Azure.extract_json_body (w.frames j).toList w.jsonLoads = .ok c)
    (hst : c.recognitionStatus = some "EndOfDictation") :
    Azure.recvLoop w deadline (fuel + 1) j = .finished none := by
  have hne : ¬(c.recognitionStatus = some "Success") := by
    rw [hst]; decide
  simp only [Azure.recvLoop]
  rw [if_pos hclk]
  simp only [hext]
  rw [if_neg hne, if_pos hst]

/-- When every frame is non-terminal and the clock reaches the deadline
within the fuel bound, the receive loop exits on its clock check and
returns Python `None`. -/
theorem recvLoop_budget_exhausted (w : Azure.World) (deadline : Nat) :
    ∀ n j fuel, (∀ k, NonTerminalFrame w k) → deadline ≤ w.clock (j + n) → n < fuel →
    Azure.recvLoop w deadline fuel j = .finished none := by
  intro n
  induction n with
  | zero =>
    intro j fuel hnt hd hf
    obtain ⟨m, rfl⟩ : ∃ m, fuel = m + 1 := ⟨fuel - 1, by omega⟩
    rw [Nat.add_zero] at hd
    simp only [Azure.recvLoop]
    rw [if_neg (Nat.not_lt.mpr hd)]
  | succ n ih =>
    intro j fuel hnt hd hf
    obtain ⟨m, rfl⟩ : ∃ m, fuel = m + 1 := ⟨fuel - 1, by omega⟩
    by_cases hc : w.clock j < deadline
    · obtain ⟨c, hext, hs, he⟩ := hnt j
      simp only [Azure.recvLoop]
      rw [if_pos hc]
      simp only [hext]
      rw [if_neg hs, if_neg he]
      apply ih (j + 1) m hnt _ (by omega)
      have harith : j + 1 + n = j + (n + 1) := by omega
      rw [harith]
      exact hd
    · simp only [Azure.recvLoop]
      rw [if_neg hc]

/-- C1 counterexample: an attempt where the upload succeeds and
`start_transcription_job` raises propagates the error with zero
`delete_object` calls — the uploaded object is not deleted, because the
source has no try/finally around the cleanup. -/
theorem c1_counterexample :
    Amazon.get_text submitRaiseWorld 5 = ⟨.raised .transportError, 0⟩ ∧
    submitRaiseWorld.putObjectRaises = false :=
  ⟨rfl, rfl⟩

/-- C1 (amended): the uploaded object is deleted exactly once on every
attempt where job submission returns and the poll loop exits without
raising (including when the result fetch then raises); but when job
submission raises, or a status poll raises, the error propagates with
the object never deleted. -/
theorem c1_cleanup_after_poll :
    (∀ w fuel ls, w.putObjectRaises = false → w.startJobRaises = false →
      (Amazon.pollLoop w fuel 0 none 0).1 = .exited ls →
      (Amazon.get_text w fuel).deleteCalls = 1) ∧
    (∀ w fuel, w.startJobRaises = true → (Amazon.get_text w fuel).deleteCalls = 0) ∧
    (∀ w fuel e, w.putObjectRaises = false → w.startJobRaises = false →
      (Amazon.pollLoop w fuel 0 none 0).1 = .raised e →
      Amazon.get_text w fuel = ⟨.raised e, 0⟩) := by
  refine ⟨?_, ?_, ?_⟩
  · intro w fuel ls hput hstart hpoll
    rcases ls with _ | st
    · simp [Amazon.get_text, hput, hstart, hpoll]
    · rcases hst : st.transcriptFileUri with _ | uri
      · simp [Amazon.get_text, hput, hstart, hpoll, hst]
      · rcases hf : w.fetchTranscript uri with e | t
        · simp [Amazon.get_text, hput, hstart, hpoll, hst, hf]
        · simp [Amazon.get_text, hput, hstart, hpoll, hst, hf]
  · intro w fuel hstart
    by_cases hput : w.putObjectRaises
    · simp [Amazon.get_text, hput]
    · simp [Amazon.get_text, hput, hstart]
  · intro w fuel e hput hstart hpoll
    simp [Amazon.get_text, hput, hstart, hpoll]

/-- C1 witness: at a concrete completed job the object is deleted once;
at a concrete failed submission, and at a concrete failed status poll,
the error propagates with zero deletions. -/
theorem c1_cleanup_after_poll_witness :
    (Amazon.get_text completedWorld 5).deleteCalls = 1 ∧
    (Amazon.get_text submitRaiseWorld 5).deleteCalls = 0 ∧
    Amazon.get_text pollRaiseWorld 5 = ⟨.raised .transportError, 0⟩ :=
  ⟨c1_cleanup_after_poll.1 completedWorld 5 (some ⟨"COMPLETED", some "uri"⟩) rfl rfl rfl,
   c1_cleanup_after_poll.2.1 submitRaiseWorld 5 rfl,
   c1_cleanup_after_poll.2.2 pollRaiseWorld 5 .transportError rfl rfl rfl⟩

/-- C2: the poll loop's guard is `while time.time() > 60`, which is
always true under a realistic wall clock, so on a job that never reaches
a terminal status the loop never exits — it does not terminate within
the 60-second budget plus one poll interval (it diverges for every fuel
bound), although it does perform at least one status query per entry. -/
theorem c2_poll_never_times_out :
    (∀ fuel k last q, (Amazon.pollLoop inProgressWorld fuel k last q).1 = .diverged) ∧
    (∀ fuel k last q, q < (Amazon.pollLoop inProgressWorld (fuel + 1) k last q).2) := by
  constructor
  · intro fuel
    induction fuel with
    | zero => intro k last q; rfl
    | succ n ih =>
      intro k last q
      have hk : 60 < inProgressWorld.clock k := by
        show 60 < 1700000000 + k
        omega
      simp only [Amazon.pollLoop]
      rw [if_pos hk, if_neg (by simp [inProgressWorld]), if_neg (by simp [inProgressWorld])]
      exact ih (k + 1) _ (q + 1)
  · intro fuel k last q
    have hk : 60 < inProgressWorld.clock k := by
      show 60 < 1700000000 + k
      omega
    simp only [Amazon.pollLoop]
    rw [if_pos hk, if_neg (by simp [inProgressWorld]), if_neg (by simp [inProgressWorld])]
    exact Nat.lt_of_lt_of_le (Nat.lt_succ_self q)
      (pollLoop_queries_mono inProgressWorld fuel (k + 1) _ (q + 1))

/-- C3 counterexample: a streaming attempt whose frames are all
non-terminal under a realistic advancing clock exits the receive loop
once the 15-second budget has elapsed and returns Python `None`
(absence) — it does not raise `TimeoutError`. -/
theorem c3_counterexample :
    Azure.get_text ⟨some "audio.mp3"⟩ "audio.mp3" inProgressAzureWorld 20 =
      ⟨.finished none, true⟩ ∧
    Azure.Outcome.finished none ≠ Azure.Outcome.raised .timeoutError :=
  ⟨rfl, by decide⟩

/-- C3 (amended): when no terminal frame arrives within the 15-second
budget, `Azure.get_text` exits its receive loop on the next clock check
and returns absence (Python `None`); no `TimeoutError` is signalled
anywhere in the source. -/
theorem c3_budget_exhausted_returns_absence (f p : String) (w : Azure.World) (n fuel : Nat)
    (hnt : ∀ k, NonTerminalFrame w k)
    (hd : w.clock 0 + 15 ≤ w.clock (1 + n)) (hf : n < fuel) :
    Azure.get_text ⟨some f⟩ p w fuel = ⟨.finished none, true⟩ := by
  show (⟨Azure.recvLoop w (w.clock 0 + 15) fuel 1, true⟩ : Azure.Run) = _
  rw [recvLoop_budget_exhausted w (w.clock 0 + 15) n 1 fuel hnt hd hf]

/-- C3 witness: the amended statement applied to the concrete
all-InProgress attempt. -/
theorem c3_budget_exhausted_returns_absence_witness :
    Azure.get_text ⟨some "clip.mp3"⟩ "clip.mp3" inProgressAzureWorld 30 =
      ⟨.finished none, true⟩ :=
  c3_budget_exhausted_returns_absence "clip.mp3" "clip.mp3" inProgressAzureWorld 14 30
    (fun _ => ⟨⟨some "InProgress", none⟩, rfl, by decide, by decide⟩)
    (by decide) (by decide)

/-- C4 counterexample: a batch attempt whose result document carries the
transcript "Three One Nine." returns it verbatim — upper-case letters
and trailing period intact — so the batch provider's result is not
normalized as the claim states. -/
theorem c4_counterexample :
    Amazon.get_text completedWorld 5 = ⟨.finished (some "Three One Nine."), 1⟩ ∧
    specNormalized "Three One Nine." = false :=
  ⟨rfl, by decide⟩

/-- C4 (amended): the streaming provider normalizes its transcript — it
returns the first Display with its final character removed and the rest
lower-cased — but the batch provider returns the result document's
transcript verbatim, with no normalization. -/
theorem c4_normalization :
    (∀ w fuel st uri t, w.putObjectRaises = false → w.startJobRaises = false →
      (Amazon.pollLoop w fuel 0 none 0).1 = .exited (some st) →
      st.transcriptFileUri = some uri → w.fetchTranscript uri = .ok t →
      (Amazon.get_text w fuel).outcome = .finished (some t)) ∧
    (∀ w deadline fuel j c d rest, w.clock j < deadline →
      Azure.extract_json_body (w.frames j).toList w.jsonLoads = .ok c →
      c.recognitionStatus = some "Success" → c.nbest = some (d :: rest) →
      Azure.recvLoop w deadline (fuel + 1) j = .finished (some (Azure.normalizeAnswer d))) := by
  constructor
  · intro w fuel st uri t hput hstart hpoll huri hf
    simp [Amazon.get_text, hput, hstart, hpoll, huri, hf]
  · exact recvLoop_success_step

/-- C4 witness: the batch side evaluated at the concrete completed job
(verbatim transcript), the streaming side at a concrete Success frame. -/
theorem c4_normalization_witness :
    (Amazon.get_text completedWorld 5).outcome = .finished (some "Three One Nine.") ∧
    Azure.recvLoop successSevenWorld 115 7 1 =
      .finished (some (Azure.normalizeAnswer "Seven.")) :=
  ⟨c4_normalization.1 completedWorld 5 ⟨"COMPLETED", some "uri"⟩ "uri" "Three One Nine."
      rfl rfl rfl rfl rfl,
   c4_normalization.2 successSevenWorld 115 6 1 ⟨some "Success", some ["Seven."]⟩ "Seven." []
      (by decide) rfl rfl rfl⟩

/-- C5: a received frame whose body has `RecognitionStatus "Success"`
and first Display "Seven." makes the receive loop return "seven"
(trailing character removed, lower-cased); a frame whose body has
`RecognitionStatus "EndOfDictation"` makes it return absence. -/
theorem c5_terminal_classification :
    (∀ w deadline fuel j c rest, w.clock j < deadline →
      Azure.extract_json_body (w.frames j).toList w.jsonLoads = .ok c →
      c.recognitionStatus = some "Success" → c.nbest = some ("Seven." :: rest) →
      Azure.recvLoop w deadline (fuel + 1) j = .finished (some "seven")) ∧
    (∀ w deadline fuel j c, w.clock j < deadline →
      Azure.extract_json_body (w.frames j).toList w.jsonLoads = .ok c →
      c.recognitionStatus = some "EndOfDictation" →
      Azure.recvLoop w deadline (fuel + 1) j = .finished none) := by
  constructor
  · intro w deadline fuel j c rest hclk hext hst hnb
    have h := recvLoop_success_step w deadline fuel j c "Seven." rest hclk hext hst hnb
    rwa [show Azure.normalizeAnswer "Seven." = "seven" by decide] at h
  · exact recvLoop_eod_step

/-- C5 witness: both classifications evaluated at concrete frames. -/
theorem c5_terminal_classification_witness :
    Azure.recvLoop successSevenWorld 115 5 1 = .finished (some "seven") ∧
    Azure.recvLoop endOfDictWorld 115 5 1 = .finished none :=
  ⟨c5_terminal_classification.1 successSevenWorld 115 4 1 ⟨some "Success", some ["Seven."]⟩ []
      (by decide) rfl rfl rfl,
   c5_terminal_classification.2 endOfDictWorld 115 4 1 ⟨some "EndOfDictation", none⟩
      (by decide) rfl rfl⟩

/-- When no position of the response matches the `^\r\n` separator
pattern, the scan returns no match.  The auxiliary quantification keeps
the invariant that `s` is the remaining suffix of `r` and that `atStart`
soundly reports a line start. -/
theorem searchSep_none_of_no_sep (r : List Char) (h : ∀ i, ¬ SepAt r i) :
    ∀ (s : List Char) (pos : Nat) (atStart : Bool),
      s = r.drop pos → (atStart = true → pos = 0 ∨ r[pos - 1]? = some '\n') →
      Azure.searchSep s pos atStart = none := by
  intro s
  induction s with
  | nil => intro pos atStart _ _; rfl
  | cons c rest ih =>
    intro pos atStart hs hstart
    have hget : r[pos]? = some c := by
      have h0 : (r.drop pos)[0]? = some c := by rw [← hs]; simp
      rwa [List.getElem?_drop, Nat.add_zero] at h0
    have hrest : rest = r.drop (pos + 1) := by
      have h2 : (r.drop pos).drop 1 = r.drop (pos + 1) := List.drop_drop 1 pos r
      rw [← hs] at h2
      simpa using h2
    simp only [Azure.searchSep]
    rw [if_neg]
    · apply ih (pos + 1) (decide (c = '\n')) hrest
      intro hd
      right
      have hc : c = '\n' := of_decide_eq_true hd
      simpa [hc] using hget
    · rintro ⟨ha, hc, hn⟩
      apply h pos
      refine ⟨hstart ha, ?_, ?_⟩
      · rw [hget, hc]
      · rw [List.head?_eq_getElem? rest, hrest, List.getElem?_drop, Nat.add_zero] at hn
        exact hn

/-- C6 counterexample: a frame lacking the header/body separator makes
`extract_json_body` raise `AttributeError` (the failed regex match is
`None` and `.end()` is called on it) — an unclassified exception, not
the `ProtocolError` the claim states. -/
theorem c6_counterexample :
    Azure.extract_json_body ("status ok".toList) (fun _ => none) = .error .attrError ∧
    PyErr.attrError ≠ PyErr.protocolError :=
  ⟨rfl, by decide⟩

/-- C6 (amended): for every received frame with no match of the
separator pattern at any position, `extract_json_body` raises
`AttributeError` — never a silent empty result, but an unclassified
attribute-access error rather than a `ProtocolError`. -/
theorem c6_missing_separator_attr_error (response : List Char)
    (jsonLoads : List Char → Option Azure.Content)
    (h : ∀ i, ¬ SepAt response i) :
    Azure.extract_json_body response jsonLoads = .error .attrError := by
  have hnone : Azure.searchSep response 0 true = none :=
    searchSep_none_of_no_sep response h response 0 true (by simp) (fun _ => Or.inl rfl)
  simp [Azure.extract_json_body, hnone]

/-- C6 witness: the amended statement applied to a concrete frame with
no separator. -/
theorem c6_missing_separator_attr_error_witness :
    Azure.extract_json_body ("no sep".toList) (fun _ => none) = .error .attrError := by
  apply c6_missing_separator_attr_error
  intro i hsep
  obtain ⟨-, h2, -⟩ := hsep
  by_cases hlt : i < 6
  · interval_cases i <;> exact absurd h2 (by decide)
  · rw [List.getElem?_eq_none_iff.mpr
      (by rw [show ("no sep".toList).length = 6 from by decide]; omega)] at h2
    exact Option.noConfusion h2

/-- C8 counterexample: a job that terminates as FAILED while its record
still carries a `TranscriptFileUri` has its result document fetched and
returned — not absence — because the source consults only the key's
presence, never the FAILED status. -/
theorem c8_counterexample :
    Amazon.get_text failedWithUriWorld 5 = ⟨.finished (some "three one nine."), 1⟩ ∧
    (failedWithUriWorld.jobRecord 0).jobStatus = "FAILED" :=
  ⟨rfl, rfl⟩

/-- C8 (amended): every batch attempt whose poll loop exits with a final
record carrying no result-document reference (the realistic FAILED case)
returns absence as a normal result — no exception — with the uploaded
object deleted exactly once; the FAILED status itself is not consulted. -/
theorem c8_no_result_reference_returns_absence (w : Amazon.World) (fuel : Nat)
    (st : Amazon.JobRecord)
    (hput : w.putObjectRaises = false) (hstart : w.startJobRaises = false)
    (hpoll : (Amazon.pollLoop w fuel 0 none 0).1 = .exited (some st))
    (huri : st.transcriptFileUri = none) :
    Amazon.get_text w fuel = ⟨.finished none, 1⟩ := by
  simp [Amazon.get_text, hput, hstart, hpoll, huri]

/-- C8 witness: the amended statement applied to the concrete FAILED job
with no result reference. -/
theorem c8_no_result_reference_returns_absence_witness :
    Amazon.get_text failedNoUriWorld 5 = ⟨.finished none, 1⟩ :=
  c8_no_result_reference_returns_absence failedNoUriWorld 5 ⟨"FAILED", none⟩ rfl rfl rfl rfl

/-- C9: `Azure.get_text` never reads its `mp3_filename` parameter — its
result is the same whatever argument is passed — and on an instance
whose `mp3_filename` attribute was never assigned every call raises
`AttributeError` at the transcode step, before any session is opened. -/
theorem c9_parameter_ignored_attr_error :
    (∀ inst p q w fuel, Azure.get_text inst p w fuel = Azure.get_text inst q w fuel) ∧
    (∀ p w fuel, Azure.get_text ⟨none⟩ p w fuel = ⟨.raised .attrError, false⟩) := by
  constructor
  · intro inst p q w fuel
    rcases inst with ⟨_ | f⟩ <;> rfl
  · intro p w fuel
    rfl

/-- C10: on a Success frame the receive loop returns the first Display
with its final character removed and the remainder lower-cased,
whatever that character is: "seven" yields "seve" (the last letter is
dropped) and the empty Display yields the empty string, no error. -/
theorem c10_unconditional_truncation :
    (∀ w deadline fuel j c d rest, w.clock j < deadline →
      Azure.extract_json_body (w.frames j).toList w.jsonLoads = .ok c →
      c.recognitionStatus = some "Success" → c.nbest = some (d :: rest) →
      Azure.recvLoop w deadline (fuel + 1) j = .finished (some (Azure.normalizeAnswer d))) ∧
    Azure.normalizeAnswer "seven" = "seve" ∧
    Azure.normalizeAnswer "" = "" :=
  ⟨recvLoop_success_step, by decide, by decide⟩

/-- C10 witness: a concrete Success frame whose Display has no trailing
punctuation loses its final letter. -/
theorem c10_unconditional_truncation_witness :
    Azure.recvLoop successNoDotWorld 115 5 1 = .finished (some "seve") := by
  have h := c10_unconditional_truncation.1 successNoDotWorld 115 4 1
      ⟨some "Success", some ["seven"]⟩ "seven" [] (by decide) rfl rfl rfl
  rwa [show Azure.normalizeAnswer "seven" = "seve" by decide] at h

/-- An ASCII character encodes to the single byte of its code point. -/
theorem utf8Bytes_ascii (c : Char) (h : c.toNat < 128) :
    Azure.utf8Bytes c = [c.toNat] := by
  simp [Azure.utf8Bytes, h]

/-- A string of ASCII characters has as many UTF-8 bytes as characters:
this is the condition under which Python's `len(header)` (characters)
agrees with the byte length of `header.encode()`. -/
theorem encodeStr_length_ascii (s : List Char) (h : ∀ c ∈ s, c.toNat < 128) :
    (Azure.encodeStr s).length = s.length := by
  induction s with
  | nil => rfl
  | cons c rest ih =>
    have hc := h c (List.mem_cons_self c rest)
    have hr : ∀ x ∈ rest, x.toNat < 128 := fun x hx => h x (List.mem_cons_of_mem c hx)
    have hi := ih hr
    simp only [Azure.encodeStr, List.flatMap_cons, List.length_append,
      utf8Bytes_ascii c hc, List.length_cons, List.length_nil] at *
    omega

/-- Every character of the built header is ASCII when the request id and
the timestamp are (the fixed literal parts always are). -/
theorem buildHeader_ascii (reqId timestamp : List Char)
    (h1 : ∀ c ∈ reqId, c.toNat < 128) (h2 : ∀ c ∈ timestamp, c.toNat < 128) :
    ∀ c ∈ Azure.buildHeader reqId timestamp, c.toNat < 128 := by
  intro c hc
  simp only [Azure.buildHeader, List.mem_append] at hc
  rcases hc with ((((hc | hc) | hc) | hc) | hc)
  · exact (by decide : ∀ x ∈ ("X-RequestId: ".toList), x.toNat < 128) c hc
  · exact h1 c hc
  · exact (by decide : ∀ x ∈ ("\r\nX-Timestamp: ".toList), x.toNat < 128) c hc
  · exact h2 c hc
  · exact (by decide :
      ∀ x ∈ ("Z\r\nPath: audio\r\nContent-Type: audio/x-wav\r\n\r\n".toList),
        x.toNat < 128) c hc

/-- C7 counterexample: for a request id containing a non-ASCII character
(here U+00E9), `build_message` produces a frame whose 2-byte prefix
packs the header's character count, which differs from the byte length
of the encoded header — so splitting at the declared length does not
recover the payload. -/
theorem c7_counterexample :
    (Azure.build_message [Char.ofNat 233] [] [170]).isSome = true ∧
    Azure.decodeLen ((Azure.build_message [Char.ofNat 233] [] [170]).getD []) ≠
      (Azure.encodeStr (Azure.buildHeader [Char.ofNat 233] [])).length ∧
    ((Azure.build_message [Char.ofNat 233] [] [170]).getD []).drop
      (2 + Azure.decodeLen ((Azure.build_message [Char.ofNat 233] [] [170]).getD [])) ≠
      [170] := by
  decide

/-- C7 (amended): for every request id and timestamp made of ASCII
characters (as the uuid-hex ids and ISO timestamps the program generates
are) and whose header fits the 16-bit prefix, the built message is the
2-byte big-endian character count of the header — which then equals the
byte length of the encoded header — followed by the encoded header and
the payload unchanged, and decoding the prefix and splitting at the
declared length recovers the payload exactly. -/
theorem c7_framing_roundtrip (reqId timestamp : List Char) (payload : List Nat)
    (h1 : ∀ c ∈ reqId, c.toNat < 128) (h2 : ∀ c ∈ timestamp, c.toNat < 128)
    (h3 : (Azure.buildHeader reqId timestamp).length < 65536) :
    Azure.build_message reqId timestamp payload =
      some ([(Azure.buildHeader reqId timestamp).length / 256,
             (Azure.buildHeader reqId timestamp).length % 256] ++
            Azure.encodeStr (Azure.buildHeader reqId timestamp) ++ payload) ∧
    ∀ msg, Azure.build_message reqId timestamp payload = some msg →
      Azure.decodeLen msg = (Azure.encodeStr (Azure.buildHeader reqId timestamp)).length ∧
      msg.drop (2 + Azure.decodeLen msg) = payload := by
  have hlen := encodeStr_length_ascii _ (buildHeader_ascii reqId timestamp h1 h2)
  have hbuild : Azure.build_message reqId timestamp payload =
      some ([(Azure.buildHeader reqId timestamp).length / 256,
             (Azure.buildHeader reqId timestamp).length % 256] ++
            Azure.encodeStr (Azure.buildHeader reqId timestamp) ++ payload) := by
    simp [Azure.build_message, Azure.pack2BE, h3]
  refine ⟨hbuild, ?_⟩
  intro msg hmsg
  rw [hbuild] at hmsg
  injection hmsg with hmsg
  subst hmsg
  have hdec : Azure.decodeLen
      ([(Azure.buildHeader reqId timestamp).length / 256,
        (Azure.buildHeader reqId timestamp).length % 256] ++
       Azure.encodeStr (Azure.buildHeader reqId timestamp) ++ payload) =
      (Azure.buildHeader reqId timestamp).length := by
    show (Azure.buildHeader reqId timestamp).length / 256 * 256 +
        (Azure.buildHeader reqId timestamp).length % 256 =
      (Azure.buildHeader reqId timestamp).length
    omega
  constructor
  · rw [hdec, hlen]
  · rw [hdec]
    have harith : 2 + (Azure.buildHeader reqId timestamp).length =
        (Azure.buildHeader reqId timestamp).length + 1 + 1 := by omega
    rw [harith]
    show (Azure.encodeStr (Azure.buildHeader reqId timestamp) ++ payload).drop
      (Azure.buildHeader reqId timestamp).length = payload
    rw [← hlen]
    exact List.drop_left _ _

/-- C7 witness: the round-trip at a concrete ASCII id, timestamp and
payload. -/
theorem c7_framing_roundtrip_witness :
    Azure.decodeLen ((Azure.build_message ("ab12".toList) ("2018".toList) [7, 9]).getD []) =
      (Azure.encodeStr (Azure.buildHeader ("ab12".toList) ("2018".toList))).length ∧
    ((Azure.build_message ("ab12".toList) ("2018".toList) [7, 9]).getD []).drop
      (2 + Azure.decodeLen
        ((Azure.build_message ("ab12".toList) ("2018".toList) [7, 9]).getD [])) = [7, 9] := by
  obtain ⟨hb, hr⟩ := c7_framing_roundtrip ("ab12".toList) ("2018".toList) [7, 9]
    (by decide) (by decide) (by decide)
  simpa [hb, Option.getD_some] using hr _ hb

end Speech
